import Mathlib

/-
Verification of the attachment exporter (scripts/py/export-photos.py).

The script is a single linear procedure: validate two user-supplied
parameters, check the source table exists, create the destination
directory if missing, then iterate the attachment rows and write each
binary payload to a file named "ATT<attachmentId>_<attachmentName>".

We embed the program shallowly.  The filesystem is explicit state (a set
of directories, an association list of files where the most recent entry
for a path shadows older ones, and the set of open file handles).  The
external environment (arcpy table lookup, cursor, and any exception the
runtime may raise during makedirs, cursor open, row fetch, file open or
file write) is modelled by a `Faults` record of injection points; the
value `noFaults` is the fault-free run.  Messages and errors emitted via
the message sink are accumulated in order.  Exception descriptions are
plain strings; the description of calling tobytes on a null (None)
payload is modelled as "NoneType object has no attribute tobytes".
-/

namespace ExportPhotos

/-- A row yielded by the search cursor over columns
DATA, ATT_NAME, ATTACHMENTID.  A `none` payload models a null (None)
DATA value; `some bs` models a memoryview whose tobytes() is `bs`. -/
structure Row where
  data : Option (List Nat)
  att_name : String
  attachment_id : Nat
deriving DecidableEq

/-- Explicit filesystem state: existing directories, files as an
association list (the first entry for a path is its current content:
writes push in front and shadow older entries), and open file handles. -/
structure FS where
  dirs : List String
  files : List (String × List Nat)
  openHandles : List String
deriving DecidableEq

/-- Exception injection points for the external environment: `mkdirError`
fires when os.makedirs is invoked, `cursorError` when the search cursor
is opened, `readError i` when row `i` is fetched from the cursor,
`openError p` when `open(p, "wb")` is called, and `writeError p` when
`file.write` is called on the handle for `p`. -/
structure Faults where
  mkdirError : Option String
  cursorError : Option String
  readError : Nat → Option String
  openError : String → Option String
  writeError : String → Option String

/-- The fault-free environment: no injected exception anywhere. -/
def noFaults : Faults :=
  ⟨none, none, fun _ => none, fun _ => none, fun _ => none⟩

/-- Result of a run: the final filesystem, the informational messages
(arcpy.AddMessage) and the error messages (arcpy.AddError), in order. -/
structure Output where
  fs : FS
  messages : List String
  errors : List String
deriving DecidableEq

/-- Current content of the file at path `p` (first matching entry). -/
def lookupFile : List (String × List Nat) → String → Option (List Nat)
  | [], _ => none
  | (q, bs) :: rest, p => if q = p then some bs else lookupFile rest p

/-- The catalog of existing tables: arcpy.Exists(t) holds iff `t` is a
key, and the cursor then yields the associated rows in order. -/
def lookupTable : List (String × List Row) → String → Option (List Row)
  | [], _ => none
  | (n, rs) :: rest, t => if n = t then some rs else lookupTable rest t

/-- A file currently exists at path `p`. -/
def present (fs : FS) (p : String) : Bool :=
  (lookupFile fs.files p).isSome

/-- os.path.exists: true when `p` is an existing directory or file. -/
def pathExists (fs : FS) (p : String) : Bool :=
  fs.dirs.contains p || present fs p

/-- Split a path into its slash-separated components (accumulator holds
the current component reversed). -/
def splitComponents : List Char → List Char → List String
  | [], acc => [String.mk acc.reverse]
  | c :: cs, acc =>
    if c = '/' then String.mk acc.reverse :: splitComponents cs []
    else splitComponents cs (c :: acc)

/-- Rejoin path components with slashes. -/
def joinComponents : List String → String
  | [] => ""
  | [s] => s
  | s :: rest => s ++ "/" ++ joinComponents rest

/-- The proper ancestors of a path: every strict prefix of its component
list, rejoined.  os.makedirs creates these along with the leaf. -/
def parentPaths (p : String) : List String :=
  let comps := splitComponents p.data []
  (List.range (comps.length - 1)).map (fun i => joinComponents (comps.take (i + 1)))

/-- os.makedirs: create the directory and any missing parent segments. -/
def mkdirs (fs : FS) (p : String) : FS :=
  { fs with dirs := p :: (parentPaths p ++ fs.dirs) }

/-- Whether a path string begins with a slash (an absolute path). -/
def startsWithSlash (s : String) : Bool :=
  match s.data with
  | [] => false
  | c :: _ => c = '/'

/-- Whether a path string ends with a slash. -/
def endsWithSlash (s : String) : Bool :=
  match s.data.reverse with
  | [] => false
  | c :: _ => c = '/'

/-- os.path.join for one component: an absolute second argument replaces
the first; otherwise a single separator is inserted as needed. -/
def joinPath (a b : String) : String :=
  if startsWithSlash b then b
  else if a = "" then b
  else if endsWithSlash a then a ++ b
  else a ++ "/" ++ b

/-- attachment.tobytes(): a memoryview yields its bytes; calling it on a
null (None) payload raises an AttributeError. -/
def tobytes : Option (List Nat) → Except String (List Nat)
  | none => Except.error "NoneType object has no attribute tobytes"
  | some bs => Except.ok bs

/-- open(p, "wb"): registers an open handle and truncates the file at
`p` to empty (creating it when absent). -/
def fopen (fs : FS) (p : String) : FS :=
  { fs with openHandles := p :: fs.openHandles, files := (p, []) :: fs.files }

/-- file.write(bs) on the handle for `p`: the file content becomes `bs`. -/
def fwrite (fs : FS) (p : String) (bs : List Nat) : FS :=
  { fs with files := (p, bs) :: fs.files }

/-- Closing the handle for `p` (the end of the with-block, reached
whether the body succeeds or raises). -/
def fclose (fs : FS) (p : String) : FS :=
  { fs with openHandles := fs.openHandles.erase p }

/-- The filesystem after a fully successful open/write/close of `bs`
at path `p`. -/
def writeRowOk (fs : FS) (p : String) (bs : List Nat) : FS :=
  fclose (fwrite (fopen fs p) p bs) p

/-- One execution of `with open(file_path, "wb") as file:
file.write(attachment.tobytes())`.  The open may raise (no handle, no
file change); after a successful open the payload conversion or the
write may raise, in which case the with-block still closes the handle
and the file is left truncated; otherwise the payload is written.
Returns the new filesystem and the raised exception text, if any. -/
def writeRow (flt : Faults) (fs : FS) (p : String) (d : Option (List Nat)) :
    FS × Option String :=
  match flt.openError p with
  | some e => (fs, some e)
  | none =>
    let fs1 := fopen fs p
    match tobytes d with
    | Except.error e => (fclose fs1 p, some e)
    | Except.ok bs =>
      match flt.writeError p with
      | some e => (fclose fs1 p, some e)
      | none => (fclose (fwrite fs1 p bs) p, none)

/-- filename = "ATT" + attachment_id + "_" + attachment_name. -/
def rowFilename (r : Row) : String :=
  "ATT" ++ toString r.attachment_id ++ "_" ++ r.att_name

/-- The output path of a row: the destination joined with its filename. -/
def rowPath (loc : String) (r : Row) : String :=
  joinPath loc (rowFilename r)

/-- The text of the catch-all error for an exception described by `e`. -/
def errMsg (e : String) : String :=
  "Error while extracting attachments: " ++ e

/-- arcpy.AddError of the catch-all message for exception `e`. -/
def addErr (out : Output) (e : String) : Output :=
  { out with errors := out.errors ++ [errMsg e] }

/-- The per-row success message. -/
def savedMsg (r : Row) : String :=
  "Saved attachment: " ++ rowFilename r

/-- The success messages of a list of rows, in order. -/
def savedMsgs (rows : List Row) : List String :=
  rows.map savedMsg

/-- The cursor loop: fetch each row (which may raise), write its payload
(which may raise), report it saved, and continue; the first exception is
reported through the catch-all handler and stops the iteration. -/
def processRows (flt : Faults) (loc : String) :
    List Row → Nat → Output → Output
  | [], _, out => out
  | r :: rs, i, out =>
    match flt.readError i with
    | some e => addErr out e
    | none =>
      match writeRow flt out.fs (rowPath loc r) r.data with
      | (fs1, some e) => addErr { out with fs := fs1 } e
      | (fs1, none) =>
        processRows flt loc rs (i + 1)
          { fs := fs1, messages := out.messages ++ [savedMsg r],
            errors := out.errors }

/-- extract_attachments(inTable, fileLocation): check the table exists,
create the destination directory when missing, then run the cursor loop;
every exception inside is reported by the single catch-all handler. -/
def extract_attachments (flt : Faults) (tables : List (String × List Row))
    (inTable fileLocation : String) (fs : FS) : Output :=
  match lookupTable tables inTable with
  | none =>
    { fs := fs, messages := [],
      errors := ["Input table " ++ inTable ++ " does not exist."] }
  | some rows =>
    if pathExists fs fileLocation then
      match flt.cursorError with
      | some e => addErr { fs := fs, messages := [], errors := [] } e
      | none =>
        processRows flt fileLocation rows 0
          { fs := fs, messages := [], errors := [] }
    else
      match flt.mkdirError with
      | some e => addErr { fs := fs, messages := [], errors := [] } e
      | none =>
        match flt.cursorError with
        | some e =>
          addErr { fs := mkdirs fs fileLocation,
                   messages := ["Created directory: " ++ fileLocation],
                   errors := [] } e
        | none =>
          processRows flt fileLocation rows 0
            { fs := mkdirs fs fileLocation,
              messages := ["Created directory: " ++ fileLocation],
              errors := [] }

/-- The module-level main code: read the two parameters, report an error
when either is empty, otherwise call extract_attachments. -/
def mainRun (flt : Faults) (tables : List (String × List Row))
    (inTable fileLocation : String) (fs : FS) : Output :=
  if inTable = "" ∨ fileLocation = "" then
    { fs := fs, messages := [],
      errors := ["Input table and file location are required."] }
  else
    extract_attachments flt tables inTable fileLocation fs

/-- The exception raised by the body of the with-block for a row at path
`p` with payload `d`, if any: first a failing open, then a failing
payload conversion, then a failing write. -/
def writeFailMsg (flt : Faults) (p : String) (d : Option (List Nat)) :
    Option String :=
  match flt.openError p with
  | some e => some e
  | none =>
    match tobytes d with
    | Except.error e => some e
    | Except.ok _ => flt.writeError p

/-- The exception raised while handling row number `i` at path `p` with
payload `d`, if any: a failing fetch, then the with-block body. -/
def rowFailMsg (flt : Faults) (i : Nat) (p : String) (d : Option (List Nat)) :
    Option String :=
  match flt.readError i with
  | some e => some e
  | none => writeFailMsg flt p d

/-- The first row whose handling raises, scanning a row list whose head
carries absolute row number `i`: returns the offset of the failing row
within the list (the number of rows fully processed before it) and the
exception description. -/
def firstRowFail (flt : Faults) (loc : String) :
    List Row → Nat → Option (Nat × String)
  | [], _ => none
  | r :: rs, i =>
    match rowFailMsg flt i (rowPath loc r) r.data with
    | some e => some (0, e)
    | none =>
      match firstRowFail flt loc rs (i + 1) with
      | some (k, e) => some (k + 1, e)
      | none => none

/-- The first exception of a whole run over an existing table, paired
with the number of rows fully processed before it: a failing makedirs
(only when the directory is missing), then a failing cursor open, then
the first failing row. -/
def firstFailure (flt : Faults) (loc : String) (fs : FS) (rows : List Row) :
    Option (Nat × String) :=
  if pathExists fs loc then
    match flt.cursorError with
    | some e => some (0, e)
    | none => firstRowFail flt loc rows 0
  else
    match flt.mkdirError with
    | some e => some (0, e)
    | none =>
      match flt.cursorError with
      | some e => some (0, e)
      | none => firstRowFail flt loc rows 0

/-- The directory-creation messages of a run over an existing table:
one message when the directory was missing and makedirs succeeded. -/
def dirMsgs (flt : Faults) (loc : String) (fs : FS) : List String :=
  if pathExists fs loc then []
  else
    match flt.mkdirError with
    | some _ => []
    | none => ["Created directory: " ++ loc]

/-- The number of rows the loop processes successfully (writing the file
and reporting it saved): all of them when no row raises, otherwise the
rows before the first failing one. -/
def processedCount (flt : Faults) (loc : String) (rows : List Row) : Nat :=
  match firstRowFail flt loc rows 0 with
  | none => rows.length
  | some (k, _) => k

/-- The (path, payload) pairs the loop writes, in row order; a null
payload contributes its truncated empty content. -/
def writePairs (loc : String) (rows : List Row) : List (String × List Nat) :=
  rows.map (fun r => (rowPath loc r, r.data.getD []))

/-- The payload of the last pair written to path `p`, if any. -/
def lastPayload : List (String × List Nat) → String → Option (List Nat)
  | [], _ => none
  | (q, bs) :: rest, p =>
    match lastPayload rest p with
    | some v => some v
    | none => if q = p then some bs else none

lemma lookupFile_append (l1 l2 : List (String × List Nat)) (p : String) :
    lookupFile (l1 ++ l2) p =
      match lookupFile l1 p with
      | some v => some v
      | none => lookupFile l2 p := by
  induction l1 with
  | nil => simp [lookupFile]
  | cons hd tl ih =>
    rcases hd with ⟨q, bs⟩
    by_cases hq : q = p <;> simp [lookupFile, hq, ih]

lemma lookupFile_append_isSome (l1 l2 : List (String × List Nat)) (p : String)
    (h : (lookupFile l2 p).isSome) : (lookupFile (l1 ++ l2) p).isSome := by
  rw [lookupFile_append]
  cases h1 : lookupFile l1 p <;> simp [h1, h]

lemma writeRowOk_eq (fs : FS) (p : String) (bs : List Nat) :
    writeRowOk fs p bs = { fs with files := (p, bs) :: (p, []) :: fs.files } := by
  simp [writeRowOk, fopen, fwrite, fclose, List.erase_cons_head]

lemma writeFailMsg_none_iff (flt : Faults) (p : String) (d : Option (List Nat)) :
    writeFailMsg flt p d = none ↔
      flt.openError p = none ∧ (∃ bs, d = some bs) ∧ flt.writeError p = none := by
  cases ho : flt.openError p <;> cases d <;>
    simp [writeFailMsg, ho, tobytes]

lemma writeRow_of_ok (flt : Faults) (fs : FS) (p : String) (bs : List Nat)
    (hopen : flt.openError p = none) (hwrite : flt.writeError p = none) :
    writeRow flt fs p (some bs) =
      ({ fs with files := (p, bs) :: (p, []) :: fs.files }, none) := by
  simp [writeRow, hopen, tobytes, hwrite, fopen, fwrite, fclose,
    List.erase_cons_head]

lemma writeRow_fail_snd (flt : Faults) (fs : FS) (p : String)
    (d : Option (List Nat)) (e : String) (h : writeFailMsg flt p d = some e) :
    (writeRow flt fs p d).2 = some e := by
  cases ho : flt.openError p with
  | some e0 =>
    simp [writeFailMsg, ho] at h
    simp [writeRow, ho, h]
  | none =>
    cases d with
    | none => simp [writeFailMsg, ho, tobytes] at h; simp [writeRow, ho, tobytes, h]
    | some bs =>
      simp [writeFailMsg, ho, tobytes] at h
      simp [writeRow, ho, tobytes, h]

lemma writeRow_fail_fst_files (flt : Faults) (fs : FS) (p : String)
    (d : Option (List Nat)) (e : String) (hopen : flt.openError p = none)
    (h : writeFailMsg flt p d = some e) :
    ((writeRow flt fs p d).1).files = (p, []) :: fs.files := by
  cases d with
  | none => simp [writeRow, hopen, tobytes, fopen, fclose]
  | some bs =>
    simp [writeFailMsg, hopen, tobytes] at h
    simp [writeRow, hopen, tobytes, h, fopen, fclose]

lemma writeRow_fst_dirs (flt : Faults) (fs : FS) (p : String)
    (d : Option (List Nat)) : ((writeRow flt fs p d).1).dirs = fs.dirs := by
  cases ho : flt.openError p with
  | some e => simp [writeRow, ho]
  | none =>
    cases d with
    | none => simp [writeRow, ho, tobytes, fopen, fclose]
    | some bs =>
      cases hw : flt.writeError p <;>
        simp [writeRow, ho, tobytes, hw, fopen, fwrite, fclose]

lemma writeRow_fst_handles (flt : Faults) (fs : FS) (p : String)
    (d : Option (List Nat)) :
    ((writeRow flt fs p d).1).openHandles = fs.openHandles := by
  cases ho : flt.openError p with
  | some e => simp [writeRow, ho]
  | none =>
    cases d with
    | none =>
      simp [writeRow, ho, tobytes, fopen, fclose, List.erase_cons_head]
    | some bs =>
      cases hw : flt.writeError p <;>
        simp [writeRow, ho, tobytes, hw, fopen, fwrite, fclose,
          List.erase_cons_head]

lemma writeRow_fst_files_extend (flt : Faults) (fs : FS) (p : String)
    (d : Option (List Nat)) :
    ∃ l, ((writeRow flt fs p d).1).files = l ++ fs.files := by
  cases ho : flt.openError p with
  | some e => exact ⟨[], by simp [writeRow, ho]⟩
  | none =>
    cases d with
    | none =>
      exact ⟨[(p, [])], by simp [writeRow, ho, tobytes, fopen, fclose]⟩
    | some bs =>
      cases hw : flt.writeError p with
      | some e =>
        exact ⟨[(p, [])],
          by simp [writeRow, ho, tobytes, hw, fopen, fwrite, fclose]⟩
      | none =>
        exact ⟨[(p, bs), (p, [])],
          by simp [writeRow, ho, tobytes, hw, fopen, fwrite, fclose]⟩

lemma rowFailMsg_none_iff (flt : Faults) (i : Nat) (p : String)
    (d : Option (List Nat)) :
    rowFailMsg flt i p d = none ↔
      flt.readError i = none ∧ writeFailMsg flt p d = none := by
  cases hr : flt.readError i <;> simp [rowFailMsg, hr]

lemma savedMsgs_nil : savedMsgs [] = [] := rfl

lemma savedMsgs_cons (r : Row) (rs : List Row) :
    savedMsgs (r :: rs) = savedMsg r :: savedMsgs rs := rfl

lemma processRows_nil (flt : Faults) (loc : String) (i : Nat) (out : Output) :
    processRows flt loc [] i out = out := rfl

lemma processRows_dirs (flt : Faults) (loc : String) (rows : List Row) :
    ∀ (i : Nat) (out : Output),
      ((processRows flt loc rows i out).fs).dirs = out.fs.dirs := by
  induction rows with
  | nil => intro i out; rfl
  | cons r rs ih =>
    intro i out
    cases hrd : flt.readError i with
    | some e => simp [processRows, hrd, addErr]
    | none =>
      rcases hw : writeRow flt out.fs (rowPath loc r) r.data with ⟨fs1, e⟩
      have hd : fs1.dirs = out.fs.dirs := by
        have h := writeRow_fst_dirs flt out.fs (rowPath loc r) r.data
        rw [hw] at h; exact h
      cases e with
      | some e0 => simp [processRows, hrd, hw, addErr]; exact hd
      | none =>
        simp [processRows, hrd, hw]
        rw [ih]; exact hd

lemma processRows_handles (flt : Faults) (loc : String) (rows : List Row) :
    ∀ (i : Nat) (out : Output),
      ((processRows flt loc rows i out).fs).openHandles =
        out.fs.openHandles := by
  induction rows with
  | nil => intro i out; rfl
  | cons r rs ih =>
    intro i out
    cases hrd : flt.readError i with
    | some e => simp [processRows, hrd, addErr]
    | none =>
      rcases hw : writeRow flt out.fs (rowPath loc r) r.data with ⟨fs1, e⟩
      have hh : fs1.openHandles = out.fs.openHandles := by
        have h := writeRow_fst_handles flt out.fs (rowPath loc r) r.data
        rw [hw] at h; exact h
      cases e with
      | some e0 => simp [processRows, hrd, hw, addErr]; exact hh
      | none =>
        simp [processRows, hrd, hw]
        rw [ih]; exact hh

lemma processRows_files_extend (flt : Faults) (loc : String) (rows : List Row) :
    ∀ (i : Nat) (out : Output),
      ∃ l, ((processRows flt loc rows i out).fs).files = l ++ out.fs.files := by
  induction rows with
  | nil => intro i out; exact ⟨[], rfl⟩
  | cons r rs ih =>
    intro i out
    cases hrd : flt.readError i with
    | some e => exact ⟨[], by simp [processRows, hrd, addErr]⟩
    | none =>
      rcases hw : writeRow flt out.fs (rowPath loc r) r.data with ⟨fs1, e⟩
      have hext : ∃ l, fs1.files = l ++ out.fs.files := by
        have h := writeRow_fst_files_extend flt out.fs (rowPath loc r) r.data
        rw [hw] at h; exact h
      rcases hext with ⟨l1, hl1⟩
      cases e with
      | some e0 =>
        exact ⟨l1, by simp [processRows, hrd, hw, addErr]; exact hl1⟩
      | none =>
        rcases ih (i + 1)
          { fs := fs1, messages := out.messages ++ [savedMsg r],
            errors := out.errors } with ⟨l2, hl2⟩
        refine ⟨l2 ++ l1, ?_⟩
        simp [processRows, hrd, hw]
        rw [hl2, hl1]

lemma processRows_present_mono (flt : Faults) (loc : String) (rows : List Row)
    (i : Nat) (out : Output) (p : String) (h : present out.fs p) :
    present ((processRows flt loc rows i out).fs) p := by
  rcases processRows_files_extend flt loc rows i out with ⟨l, hl⟩
  unfold present at h ⊢
  rw [hl]
  exact lookupFile_append_isSome l out.fs.files p h

lemma processRows_messages_extend (flt : Faults) (loc : String)
    (rows : List Row) : ∀ (i : Nat) (out : Output),
      ∃ t, (processRows flt loc rows i out).messages = out.messages ++ t := by
  induction rows with
  | nil => intro i out; exact ⟨[], by simp [processRows_nil]⟩
  | cons r rs ih =>
    intro i out
    cases hrd : flt.readError i with
    | some e => exact ⟨[], by simp [processRows, hrd, addErr]⟩
    | none =>
      rcases hw : writeRow flt out.fs (rowPath loc r) r.data with ⟨fs1, e⟩
      cases e with
      | some e0 => exact ⟨[], by simp [processRows, hrd, hw, addErr]⟩
      | none =>
        rcases ih (i + 1)
          { fs := fs1, messages := out.messages ++ [savedMsg r],
            errors := out.errors } with ⟨t, ht⟩
        refine ⟨[savedMsg r] ++ t, ?_⟩
        simp [processRows, hrd, hw]
        rw [ht]
        simp

lemma processRows_cons_ok (flt : Faults) (loc : String) (r : Row)
    (rs : List Row) (i : Nat) (out : Output)
    (hrd : flt.readError i = none)
    (hw : writeFailMsg flt (rowPath loc r) r.data = none) :
    processRows flt loc (r :: rs) i out =
      processRows flt loc rs (i + 1)
        { fs := { out.fs with
            files := (rowPath loc r, r.data.getD []) ::
              (rowPath loc r, []) :: out.fs.files },
          messages := out.messages ++ [savedMsg r],
          errors := out.errors } := by
  rcases (writeFailMsg_none_iff flt (rowPath loc r) r.data).mp hw with
    ⟨hopen, ⟨bs, hbs⟩, hwrite⟩
  have hwr := writeRow_of_ok flt out.fs (rowPath loc r) bs hopen hwrite
  simp [processRows, hrd, hbs, hwr]

lemma processRows_cons_fail (flt : Faults) (loc : String) (r : Row)
    (rs : List Row) (i : Nat) (out : Output) (e : String)
    (h : rowFailMsg flt i (rowPath loc r) r.data = some e) :
    (processRows flt loc (r :: rs) i out).errors = out.errors ++ [errMsg e]
    ∧ (processRows flt loc (r :: rs) i out).messages = out.messages := by
  cases hrd : flt.readError i with
  | some e0 =>
    simp [rowFailMsg, hrd] at h
    subst h
    simp [processRows, hrd, addErr]
  | none =>
    have hwf : writeFailMsg flt (rowPath loc r) r.data = some e := by
      simpa [rowFailMsg, hrd] using h
    have hsnd := writeRow_fail_snd flt out.fs (rowPath loc r) r.data e hwf
    rcases hw2 : writeRow flt out.fs (rowPath loc r) r.data with ⟨fs1, e2⟩
    rw [hw2] at hsnd
    simp at hsnd
    subst hsnd
    simp [processRows, hrd, hw2, addErr]

lemma processRows_fail (flt : Faults) (loc : String) (rows : List Row) :
    ∀ (i : Nat) (out : Output) (k : Nat) (e : String),
      firstRowFail flt loc rows i = some (k, e) →
      k < rows.length
      ∧ (processRows flt loc rows i out).errors = out.errors ++ [errMsg e]
      ∧ (processRows flt loc rows i out).messages =
          out.messages ++ savedMsgs (rows.take k) := by
  induction rows with
  | nil => intro i out k e h; simp [firstRowFail] at h
  | cons r rs ih =>
    intro i out k e h
    cases hf : rowFailMsg flt i (rowPath loc r) r.data with
    | some e0 =>
      simp [firstRowFail, hf] at h
      obtain ⟨hk0, he0⟩ := h
      subst hk0; subst he0
      have hc := processRows_cons_fail flt loc r rs i out e0 hf
      exact ⟨Nat.succ_pos _, hc.1, by rw [hc.2]; simp [savedMsgs_nil]⟩
    | none =>
      have h' : firstRowFail flt loc rs (i + 1) = some (k - 1, e) ∧ 1 ≤ k := by
        rcases h2 : firstRowFail flt loc rs (i + 1) with _ | ⟨k2, e2⟩
        · simp [firstRowFail, hf, h2] at h
        · simp [firstRowFail, hf, h2] at h
          obtain ⟨hk2, he2⟩ := h
          subst he2
          refine ⟨?_, by omega⟩
          have hke : k - 1 = k2 := by omega
          rw [hke]
      obtain ⟨hfr, hk1⟩ := h'
      set out1 : Output :=
        { fs := { out.fs with
            files := (rowPath loc r, r.data.getD []) ::
              (rowPath loc r, []) :: out.fs.files },
          messages := out.messages ++ [savedMsg r],
          errors := out.errors } with hout1
      obtain ⟨hlen, herr, hmsg⟩ := ih (i + 1) out1 (k - 1) e hfr
      have hwf : writeFailMsg flt (rowPath loc r) r.data = none := by
        cases hrd : flt.readError i with
        | some e0 => simp [rowFailMsg, hrd] at hf
        | none => simpa [rowFailMsg, hrd] using hf
      have hrd : flt.readError i = none := by
        cases hrd : flt.readError i with
        | some e0 => simp [rowFailMsg, hrd] at hf
        | none => rfl
      rw [processRows_cons_ok flt loc r rs i out hrd hwf, ← hout1]
      have hk : k = (k - 1) + 1 := by omega
      refine ⟨by simp; omega, ?_, ?_⟩
      · rw [herr, hout1]
      · rw [hmsg, hout1]
        rw [hk, List.take_succ_cons, savedMsgs_cons]
        simp

lemma processRows_fail_presence (flt : Faults) (loc : String)
    (rows : List Row) : ∀ (i : Nat) (out : Output) (k : Nat) (e : String),
      firstRowFail flt loc rows i = some (k, e) →
      ∀ j (hj : j < rows.length), j < k →
        present ((processRows flt loc rows i out).fs)
          (rowPath loc (rows.get ⟨j, hj⟩)) := by
  induction rows with
  | nil => intro i out k e h; simp [firstRowFail] at h
  | cons r rs ih =>
    intro i out k e h j hj hjk
    cases hf : rowFailMsg flt i (rowPath loc r) r.data with
    | some e0 =>
      simp [firstRowFail, hf] at h
      obtain ⟨hk0, _⟩ := h
      omega
    | none =>
      have hwf : writeFailMsg flt (rowPath loc r) r.data = none := by
        cases hrd : flt.readError i with
        | some e0 => simp [rowFailMsg, hrd] at hf
        | none => simpa [rowFailMsg, hrd] using hf
      have hrd : flt.readError i = none := by
        cases hrd : flt.readError i with
        | some e0 => simp [rowFailMsg, hrd] at hf
        | none => rfl
      have h' : firstRowFail flt loc rs (i + 1) = some (k - 1, e) := by
        rcases h2 : firstRowFail flt loc rs (i + 1) with _ | ⟨k2, e2⟩
        · simp [firstRowFail, hf, h2] at h
        · simp [firstRowFail, hf, h2] at h
          obtain ⟨hk2, he2⟩ := h
          subst he2
          have hke : k - 1 = k2 := by omega
          rw [hke]
      rw [processRows_cons_ok flt loc r rs i out hrd hwf]
      set out1 : Output :=
        { fs := { out.fs with
            files := (rowPath loc r, r.data.getD []) ::
              (rowPath loc r, []) :: out.fs.files },
          messages := out.messages ++ [savedMsg r],
          errors := out.errors } with hout1
      cases j with
      | zero =>
        apply processRows_present_mono
        simp [present, hout1, lookupFile]
      | succ j' =>
        have hj' : j' < rs.length := by simpa using hj
        have := ih (i + 1) out1 (k - 1) e h' j' hj' (by omega)
        simpa using this

lemma processRows_fail_file (flt : Faults) (loc : String)
    (rows : List Row) : ∀ (i : Nat) (out : Output) (k : Nat) (e : String),
      firstRowFail flt loc rows i = some (k, e) →
      ∀ (hk : k < rows.length),
        flt.readError (i + k) = none →
        flt.openError (rowPath loc (rows.get ⟨k, hk⟩)) = none →
        lookupFile ((processRows flt loc rows i out).fs).files
          (rowPath loc (rows.get ⟨k, hk⟩)) = some [] := by
  induction rows with
  | nil => intro i out k e h; simp [firstRowFail] at h
  | cons r rs ih =>
    intro i out k e h hk hread hopen
    cases hf : rowFailMsg flt i (rowPath loc r) r.data with
    | some e0 =>
      simp [firstRowFail, hf] at h
      obtain ⟨hk0, he0⟩ := h
      subst he0
      subst hk0
      simp only [List.get] at hopen ⊢
      simp only [Nat.add_zero] at hread
      have hwf : writeFailMsg flt (rowPath loc r) r.data = some e0 := by
        simpa [rowFailMsg, hread] using hf
      have hfiles := writeRow_fail_fst_files flt out.fs (rowPath loc r)
        r.data e0 hopen hwf
      have hsnd := writeRow_fail_snd flt out.fs (rowPath loc r) r.data e0 hwf
      rcases hw2 : writeRow flt out.fs (rowPath loc r) r.data with ⟨fs1, e2⟩
      rw [hw2] at hsnd hfiles
      simp at hsnd hfiles
      subst hsnd
      simp [processRows, hread, hw2, addErr, hfiles, lookupFile]
    | none =>
      have hwf : writeFailMsg flt (rowPath loc r) r.data = none := by
        cases hrd : flt.readError i with
        | some e0 => simp [rowFailMsg, hrd] at hf
        | none => simpa [rowFailMsg, hrd] using hf
      have hrd : flt.readError i = none := by
        cases hrd : flt.readError i with
        | some e0 => simp [rowFailMsg, hrd] at hf
        | none => rfl
      rcases h2 : firstRowFail flt loc rs (i + 1) with _ | ⟨k2, e2⟩
      · simp [firstRowFail, hf, h2] at h
      · simp [firstRowFail, hf, h2] at h
        obtain ⟨hk2, he2⟩ := h
        subst he2
        subst hk2
        rw [processRows_cons_ok flt loc r rs i out hrd hwf]
        have hk' : k2 < rs.length := by simpa using hk
        have hrd2 : flt.readError (i + 1 + k2) = none := by
          have harith : i + (k2 + 1) = i + 1 + k2 := by omega
          rwa [harith] at hread
        have hopen2 : flt.openError (rowPath loc (rs.get ⟨k2, hk'⟩)) = none := by
          simpa using hopen
        have hres := ih (i + 1)
          { fs := { out.fs with
              files := (rowPath loc r, r.data.getD []) ::
                (rowPath loc r, []) :: out.fs.files },
            messages := out.messages ++ [savedMsg r],
            errors := out.errors } k2 e2 h2 hk' hrd2 hopen2
        simpa using hres

lemma writePairs_nil (loc : String) : writePairs loc [] = [] := rfl

lemma writePairs_cons (loc : String) (r : Row) (rs : List Row) :
    writePairs loc (r :: rs) =
      (rowPath loc r, r.data.getD []) :: writePairs loc rs := rfl

lemma processRows_ok (flt : Faults) (loc : String) (rows : List Row) :
    ∀ (i : Nat) (out : Output), firstRowFail flt loc rows i = none →
      (processRows flt loc rows i out).errors = out.errors
      ∧ (processRows flt loc rows i out).messages =
          out.messages ++ savedMsgs rows
      ∧ ∀ q, lookupFile ((processRows flt loc rows i out).fs).files q =
          (lastPayload (writePairs loc rows) q).elim
            (lookupFile out.fs.files q) some := by
  induction rows with
  | nil =>
    intro i out _
    refine ⟨rfl, by simp [processRows_nil, savedMsgs_nil], ?_⟩
    intro q
    simp [processRows_nil, writePairs, lastPayload, Option.elim]
  | cons r rs ih =>
    intro i out h
    cases hf : rowFailMsg flt i (rowPath loc r) r.data with
    | some e0 => simp [firstRowFail, hf] at h
    | none =>
      have h2 : firstRowFail flt loc rs (i + 1) = none := by
        rcases h3 : firstRowFail flt loc rs (i + 1) with _ | ⟨k2, e2⟩
        · rfl
        · simp [firstRowFail, hf, h3] at h
      have hwf : writeFailMsg flt (rowPath loc r) r.data = none := by
        cases hrd : flt.readError i with
        | some e0 => simp [rowFailMsg, hrd] at hf
        | none => simpa [rowFailMsg, hrd] using hf
      have hrd : flt.readError i = none := by
        cases hrd : flt.readError i with
        | some e0 => simp [rowFailMsg, hrd] at hf
        | none => rfl
      rw [processRows_cons_ok flt loc r rs i out hrd hwf]
      set out1 : Output :=
        { fs := { out.fs with
            files := (rowPath loc r, r.data.getD []) ::
              (rowPath loc r, []) :: out.fs.files },
          messages := out.messages ++ [savedMsg r],
          errors := out.errors } with hout1
      obtain ⟨he, hm, hl⟩ := ih (i + 1) out1 h2
      refine ⟨by rw [he], by rw [hm]; simp [hout1, savedMsgs_cons], ?_⟩
      intro q
      rw [hl q, writePairs_cons]
      simp only [lastPayload]
      cases hlp : lastPayload (writePairs loc rs) q with
      | some v => rfl
      | none =>
        by_cases hpq : rowPath loc r = q <;>
          simp [hpq, Option.elim, hout1, lookupFile]

lemma lastPayload_none_of_not_mem (l : List (String × List Nat)) (p : String)
    (h : ∀ pr ∈ l, pr.1 ≠ p) : lastPayload l p = none := by
  induction l with
  | nil => rfl
  | cons hd tl ih =>
    rcases hd with ⟨q, bs⟩
    have hq : q ≠ p := h (q, bs) (List.mem_cons_self _ _)
    have htl := ih (fun pr hpr => h pr (List.mem_cons_of_mem _ hpr))
    simp [lastPayload, htl, hq]

lemma lastPayload_last (loc : String) (rows : List Row) :
    ∀ (j : Nat) (hj : j < rows.length),
      (∀ l (hl : l < rows.length), j < l →
        rowPath loc (rows.get ⟨l, hl⟩) ≠ rowPath loc (rows.get ⟨j, hj⟩)) →
      lastPayload (writePairs loc rows) (rowPath loc (rows.get ⟨j, hj⟩)) =
        some ((rows.get ⟨j, hj⟩).data.getD []) := by
  induction rows with
  | nil => intro j hj; simp at hj
  | cons r rs ih =>
    intro j hj hlast
    cases j with
    | zero =>
      have hnone :
          lastPayload (writePairs loc rs) (rowPath loc r) = none := by
        apply lastPayload_none_of_not_mem
        intro pr hpr
        rcases List.mem_map.mp hpr with ⟨r2, hr2, hpr2⟩
        rcases List.mem_iff_get.mp hr2 with ⟨n, hn⟩
        have hne := hlast (n.val + 1) (by simp) (by omega)
        rw [← hpr2, ← hn]
        simpa using hne
      have hget : (r :: rs).get ⟨0, hj⟩ = r := rfl
      rw [hget, writePairs_cons]
      simp only [lastPayload]
      rw [hnone]
      simp
    | succ j' =>
      have hj' : j' < rs.length := by simpa using hj
      have hlast' : ∀ l (hl : l < rs.length), j' < l →
          rowPath loc (rs.get ⟨l, hl⟩) ≠ rowPath loc (rs.get ⟨j', hj'⟩) := by
        intro l hl hlt
        have := hlast (l + 1) (by simpa using hl) (by omega)
        simpa using this
      have hres := ih j' hj' hlast'
      have hget : (r :: rs).get ⟨j' + 1, hj⟩ = rs.get ⟨j', hj'⟩ := rfl
      rw [hget, writePairs_cons]
      simp only [lastPayload]
      rw [hres]

lemma lastPayload_isSome_of_mem (loc : String) (rows : List Row) :
    ∀ (j : Nat) (hj : j < rows.length),
      (lastPayload (writePairs loc rows)
        (rowPath loc (rows.get ⟨j, hj⟩))).isSome := by
  induction rows with
  | nil => intro j hj; simp at hj
  | cons r rs ih =>
    intro j hj
    cases j with
    | zero =>
      have hget : (r :: rs).get ⟨0, hj⟩ = r := rfl
      rw [hget, writePairs_cons]
      simp only [lastPayload]
      cases hlp : lastPayload (writePairs loc rs) (rowPath loc r) with
      | some v => rfl
      | none => simp
    | succ j' =>
      have hj' : j' < rs.length := by simpa using hj
      have hres := ih j' hj'
      have hget : (r :: rs).get ⟨j' + 1, hj⟩ = rs.get ⟨j', hj'⟩ := rfl
      rw [hget, writePairs_cons]
      simp only [lastPayload]
      cases hlp : lastPayload (writePairs loc rs)
          (rowPath loc (rs.get ⟨j', hj'⟩)) with
      | some v => rfl
      | none => rw [hlp] at hres; simp at hres

lemma firstRowFail_of_prefix (flt : Faults) (loc : String) (rows : List Row) :
    ∀ (i k : Nat) (hk : k < rows.length) (e : String),
      (∀ j (hj : j < rows.length), j < k →
        rowFailMsg flt (i + j) (rowPath loc (rows.get ⟨j, hj⟩))
          (rows.get ⟨j, hj⟩).data = none) →
      rowFailMsg flt (i + k) (rowPath loc (rows.get ⟨k, hk⟩))
          (rows.get ⟨k, hk⟩).data = some e →
      firstRowFail flt loc rows i = some (k, e) := by
  induction rows with
  | nil => intro i k hk; simp at hk
  | cons r rs ih =>
    intro i k hk e hpre hfail
    cases k with
    | zero =>
      have hfail0 : rowFailMsg flt i (rowPath loc r) r.data = some e := by
        simpa using hfail
      simp [firstRowFail, hfail0]
    | succ k' =>
      have h0 : rowFailMsg flt i (rowPath loc r) r.data = none := by
        have := hpre 0 (by simp) (by omega)
        simpa using this
      have hk' : k' < rs.length := by simpa using hk
      have hpre' : ∀ j (hj : j < rs.length), j < k' →
          rowFailMsg flt (i + 1 + j) (rowPath loc (rs.get ⟨j, hj⟩))
            (rs.get ⟨j, hj⟩).data = none := by
        intro j hj hjk
        have hp := hpre (j + 1) (by simpa using hj) (by omega)
        have harith : i + (j + 1) = i + 1 + j := by omega
        rw [harith] at hp
        simpa using hp
      have hfail' : rowFailMsg flt (i + 1 + k')
          (rowPath loc (rs.get ⟨k', hk'⟩)) (rs.get ⟨k', hk'⟩).data = some e := by
        have harith : i + (k' + 1) = i + 1 + k' := by omega
        rw [harith] at hfail
        simpa using hfail
      have hrec := ih (i + 1) k' hk' e hpre' hfail'
      simp [firstRowFail, h0, hrec]

lemma firstRowFail_none_all (flt : Faults) (loc : String) (rows : List Row) :
    ∀ (i : Nat), firstRowFail flt loc rows i = none →
      ∀ j (hj : j < rows.length),
        rowFailMsg flt (i + j) (rowPath loc (rows.get ⟨j, hj⟩))
          (rows.get ⟨j, hj⟩).data = none := by
  induction rows with
  | nil => intro i _ j hj; simp at hj
  | cons r rs ih =>
    intro i h j hj
    cases hf : rowFailMsg flt i (rowPath loc r) r.data with
    | some e0 => simp [firstRowFail, hf] at h
    | none =>
      have h2 : firstRowFail flt loc rs (i + 1) = none := by
        rcases h3 : firstRowFail flt loc rs (i + 1) with _ | ⟨k2, e2⟩
        · rfl
        · simp [firstRowFail, hf, h3] at h
      cases j with
      | zero => simpa using hf
      | succ j' =>
        have hj' : j' < rs.length := by simpa using hj
        have hres := ih (i + 1) h2 j' hj'
        have harith : i + (j' + 1) = i + 1 + j' := by omega
        rw [harith]
        simpa using hres

lemma firstRowFail_prefix_ok (flt : Faults) (loc : String) (rows : List Row) :
    ∀ (i k : Nat) (e : String), firstRowFail flt loc rows i = some (k, e) →
      ∀ j (hj : j < rows.length), j < k →
        rowFailMsg flt (i + j) (rowPath loc (rows.get ⟨j, hj⟩))
          (rows.get ⟨j, hj⟩).data = none := by
  induction rows with
  | nil => intro i k e h; simp [firstRowFail] at h
  | cons r rs ih =>
    intro i k e h j hj hjk
    cases hf : rowFailMsg flt i (rowPath loc r) r.data with
    | some e0 =>
      simp [firstRowFail, hf] at h
      obtain ⟨hk0, _⟩ := h
      omega
    | none =>
      rcases h2 : firstRowFail flt loc rs (i + 1) with _ | ⟨k2, e2⟩
      · simp [firstRowFail, hf, h2] at h
      · simp [firstRowFail, hf, h2] at h
        obtain ⟨hk2, he2⟩ := h
        cases j with
        | zero => simpa using hf
        | succ j' =>
          have hj' : j' < rs.length := by simpa using hj
          have hres := ih (i + 1) k2 e2 h2 j' hj' (by omega)
          have harith : i + (j' + 1) = i + 1 + j' := by omega
          rw [harith]
          simpa using hres

lemma processRows_fail_lookup_opened (flt : Faults) (loc : String)
    (rows : List Row) : ∀ (i : Nat) (out : Output) (k : Nat) (e : String),
      firstRowFail flt loc rows i = some (k, e) →
      ∀ (hk : k < rows.length),
        flt.readError (i + k) = none →
        flt.openError (rowPath loc (rows.get ⟨k, hk⟩)) = none →
        ∀ q, lookupFile ((processRows flt loc rows i out).fs).files q =
          if rowPath loc (rows.get ⟨k, hk⟩) = q then some []
          else (lastPayload (writePairs loc (rows.take k)) q).elim
            (lookupFile out.fs.files q) some := by
  induction rows with
  | nil => intro i out k e h; simp [firstRowFail] at h
  | cons r rs ih =>
    intro i out k e h hk hread hopen q
    cases hf : rowFailMsg flt i (rowPath loc r) r.data with
    | some e0 =>
      simp [firstRowFail, hf] at h
      obtain ⟨hk0, he0⟩ := h
      subst he0
      subst hk0
      simp only [List.get] at hopen ⊢
      simp only [Nat.add_zero] at hread
      have hwf : writeFailMsg flt (rowPath loc r) r.data = some e0 := by
        simpa [rowFailMsg, hread] using hf
      have hfiles := writeRow_fail_fst_files flt out.fs (rowPath loc r)
        r.data e0 hopen hwf
      have hsnd := writeRow_fail_snd flt out.fs (rowPath loc r) r.data e0 hwf
      rcases hw2 : writeRow flt out.fs (rowPath loc r) r.data with ⟨fs1, e2⟩
      rw [hw2] at hsnd hfiles
      simp at hsnd hfiles
      subst hsnd
      by_cases hpq : rowPath loc r = q
      · subst hpq
        simp [processRows, hread, hw2, addErr, hfiles, lookupFile]
      · rw [if_neg hpq]
        simp [processRows, hread, hw2, addErr, hfiles, lookupFile, hpq,
          writePairs_nil, lastPayload, Option.elim]
    | none =>
      have hwf : writeFailMsg flt (rowPath loc r) r.data = none := by
        cases hrd : flt.readError i with
        | some e0 => simp [rowFailMsg, hrd] at hf
        | none => simpa [rowFailMsg, hrd] using hf
      have hrd : flt.readError i = none := by
        cases hrd : flt.readError i with
        | some e0 => simp [rowFailMsg, hrd] at hf
        | none => rfl
      rcases h2 : firstRowFail flt loc rs (i + 1) with _ | ⟨k2, e2⟩
      · simp [firstRowFail, hf, h2] at h
      · simp [firstRowFail, hf, h2] at h
        obtain ⟨hk2, he2⟩ := h
        subst he2
        subst hk2
        rw [processRows_cons_ok flt loc r rs i out hrd hwf]
        have hk' : k2 < rs.length := by simpa using hk
        have hrd2 : flt.readError (i + 1 + k2) = none := by
          have harith : i + (k2 + 1) = i + 1 + k2 := by omega
          rwa [harith] at hread
        have hopen2 : flt.openError (rowPath loc (rs.get ⟨k2, hk'⟩)) =
            none := by
          simpa using hopen
        have hres := ih (i + 1)
          { fs := { out.fs with
              files := (rowPath loc r, r.data.getD []) ::
                (rowPath loc r, []) :: out.fs.files },
            messages := out.messages ++ [savedMsg r],
            errors := out.errors } k2 e2 h2 hk' hrd2 hopen2 q
        rw [hres]
        have hgetk : (r :: rs).get ⟨k2 + 1, hk⟩ = rs.get ⟨k2, hk'⟩ := rfl
        rw [hgetk]
        by_cases hpk : rowPath loc (rs.get ⟨k2, hk'⟩) = q
        · rw [if_pos hpk, if_pos hpk]
        · rw [if_neg hpk, if_neg hpk]
          rw [List.take_succ_cons, writePairs_cons]
          simp only [lastPayload]
          cases hlp : lastPayload (writePairs loc (rs.take k2)) q with
          | some v => rfl
          | none =>
            by_cases hpq : rowPath loc r = q <;>
              simp [hpq, Option.elim, lookupFile]

lemma processRows_fail_lookup_unopened (flt : Faults) (loc : String)
    (rows : List Row) : ∀ (i : Nat) (out : Output) (k : Nat) (e : String),
      firstRowFail flt loc rows i = some (k, e) →
      ∀ (hk : k < rows.length),
        ¬ (flt.readError (i + k) = none ∧
            flt.openError (rowPath loc (rows.get ⟨k, hk⟩)) = none) →
        ∀ q, lookupFile ((processRows flt loc rows i out).fs).files q =
          (lastPayload (writePairs loc (rows.take k)) q).elim
            (lookupFile out.fs.files q) some := by
  induction rows with
  | nil => intro i out k e h; simp [firstRowFail] at h
  | cons r rs ih =>
    intro i out k e h hk hno q
    cases hf : rowFailMsg flt i (rowPath loc r) r.data with
    | some e0 =>
      simp [firstRowFail, hf] at h
      obtain ⟨hk0, he0⟩ := h
      subst he0
      subst hk0
      simp only [List.get] at hno ⊢
      simp only [Nat.add_zero] at hno
      cases hrd : flt.readError i with
      | some e1 =>
        simp [processRows, hrd, addErr, writePairs_nil, lastPayload,
          Option.elim]
      | none =>
        have hop : ¬ flt.openError (rowPath loc r) = none := by
          intro hcon
          exact hno ⟨hrd, hcon⟩
        rcases ho : flt.openError (rowPath loc r) with _ | e1
        · exact absurd ho hop
        · have hw2 : writeRow flt out.fs (rowPath loc r) r.data =
              (out.fs, some e1) := by
            simp [writeRow, ho]
          simp [processRows, hrd, hw2, addErr, writePairs_nil, lastPayload,
            Option.elim]
    | none =>
      have hwf : writeFailMsg flt (rowPath loc r) r.data = none := by
        cases hrd : flt.readError i with
        | some e0 => simp [rowFailMsg, hrd] at hf
        | none => simpa [rowFailMsg, hrd] using hf
      have hrd : flt.readError i = none := by
        cases hrd : flt.readError i with
        | some e0 => simp [rowFailMsg, hrd] at hf
        | none => rfl
      rcases h2 : firstRowFail flt loc rs (i + 1) with _ | ⟨k2, e2⟩
      · simp [firstRowFail, hf, h2] at h
      · simp [firstRowFail, hf, h2] at h
        obtain ⟨hk2, he2⟩ := h
        subst he2
        subst hk2
        rw [processRows_cons_ok flt loc r rs i out hrd hwf]
        have hk' : k2 < rs.length := by simpa using hk
        have hno2 : ¬ (flt.readError (i + 1 + k2) = none ∧
            flt.openError (rowPath loc (rs.get ⟨k2, hk'⟩)) = none) := by
          intro hcon
          apply hno
          have harith : i + (k2 + 1) = i + 1 + k2 := by omega
          rw [harith]
          exact ⟨hcon.1, by simpa using hcon.2⟩
        have hres := ih (i + 1)
          { fs := { out.fs with
              files := (rowPath loc r, r.data.getD []) ::
                (rowPath loc r, []) :: out.fs.files },
            messages := out.messages ++ [savedMsg r],
            errors := out.errors } k2 e2 h2 hk' hno2 q
        rw [hres]
        rw [List.take_succ_cons, writePairs_cons]
        simp only [lastPayload]
        cases hlp : lastPayload (writePairs loc (rs.take k2)) q with
        | some v => rfl
        | none =>
          by_cases hpq : rowPath loc r = q <;>
            simp [hpq, Option.elim, lookupFile]

lemma lastPayload_last_take (loc : String) (rows : List Row) (k i : Nat)
    (hik : i < k) (hi : i < rows.length)
    (hnodup : ∀ l (hl : l < rows.length), i < l → l < k →
      rowPath loc (rows.get ⟨l, hl⟩) ≠ rowPath loc (rows.get ⟨i, hi⟩)) :
    lastPayload (writePairs loc (rows.take k))
      (rowPath loc (rows.get ⟨i, hi⟩)) =
      some ((rows.get ⟨i, hi⟩).data.getD []) := by
  have hi' : i < (rows.take k).length := by
    simp [List.length_take]; omega
  have hgeti : (rows.take k).get ⟨i, hi'⟩ = rows.get ⟨i, hi⟩ := by
    simp [List.getElem_take]
  have hlast' : ∀ l (hl : l < (rows.take k).length), i < l →
      rowPath loc ((rows.take k).get ⟨l, hl⟩) ≠
        rowPath loc ((rows.take k).get ⟨i, hi'⟩) := by
    intro l hl hil
    have hlk : l < k := by simp [List.length_take] at hl; omega
    have hll : l < rows.length := by simp [List.length_take] at hl; omega
    have hgetl : (rows.take k).get ⟨l, hl⟩ = rows.get ⟨l, hll⟩ := by
      simp [List.getElem_take]
    rw [hgetl, hgeti]
    exact hnodup l hll hil hlk
  have hres := lastPayload_last loc (rows.take k) i hi' hlast'
  rw [hgeti] at hres
  exact hres

lemma extract_eq_processRows (flt : Faults) (tables : List (String × List Row))
    (inTable loc : String) (fs : FS) (rows : List Row)
    (hT : lookupTable tables inTable = some rows)
    (hmk : pathExists fs loc = true ∨ flt.mkdirError = none)
    (hcur : flt.cursorError = none) :
    extract_attachments flt tables inTable loc fs =
      processRows flt loc rows 0
        { fs := if pathExists fs loc then fs else mkdirs fs loc,
          messages := dirMsgs flt loc fs, errors := [] } := by
  cases hpe : pathExists fs loc with
  | true => simp [extract_attachments, hT, hpe, hcur, dirMsgs]
  | false =>
    have hmk2 : flt.mkdirError = none := by
      rcases hmk with h | h
      · rw [hpe] at h; exact absurd h (by simp)
      · exact h
    simp [extract_attachments, hT, hpe, hcur, hmk2, dirMsgs]

lemma extract_handles (flt : Faults) (tables : List (String × List Row))
    (inTable loc : String) (fs : FS) :
    ((extract_attachments flt tables inTable loc fs).fs).openHandles =
      fs.openHandles := by
  cases hT : lookupTable tables inTable with
  | none => simp [extract_attachments, hT]
  | some rows =>
    cases hpe : pathExists fs loc with
    | true =>
      cases hcur : flt.cursorError with
      | some e => simp [extract_attachments, hT, hpe, hcur, addErr]
      | none =>
        simp [extract_attachments, hT, hpe, hcur, processRows_handles]
    | false =>
      cases hmk : flt.mkdirError with
      | some e => simp [extract_attachments, hT, hpe, hmk, addErr]
      | none =>
        cases hcur : flt.cursorError with
        | some e =>
          simp [extract_attachments, hT, hpe, hmk, hcur, addErr, mkdirs]
        | none =>
          simp [extract_attachments, hT, hpe, hmk, hcur,
            processRows_handles, mkdirs]

/-- C2: if the source relation does not exist, extract_attachments reports
an error naming the missing resource and returns with no side effects:
the filesystem (directories and files) is unchanged and no informational
message is emitted. -/
theorem extract_missing_table_no_side_effects (flt : Faults)
    (tables : List (String × List Row)) (inTable loc : String) (fs : FS)
    (h : lookupTable tables inTable = none) :
    extract_attachments flt tables inTable loc fs =
      { fs := fs, messages := [],
        errors := ["Input table " ++ inTable ++ " does not exist."] } := by
  simp [extract_attachments, h]

/-- Witness for C2 at a concrete input. -/
theorem extract_missing_table_no_side_effects_witness :
    lookupTable [] "T" = none ∧
      extract_attachments noFaults [] "T" "out" ⟨[], [], []⟩ =
        { fs := ⟨[], [], []⟩, messages := [],
          errors := ["Input table " ++ "T" ++ " does not exist."] } :=
  ⟨rfl, extract_missing_table_no_side_effects noFaults [] "T" "out"
    ⟨[], [], []⟩ rfl⟩

/-- C3: if either of the two input parameters is empty, the run reports
an error and performs no work: the result is exactly the initial
filesystem with the single parameter error, independent of the table
catalog, so extract_attachments contributes nothing. -/
theorem mainRun_empty_params_no_work (flt : Faults)
    (tables : List (String × List Row)) (inTable loc : String) (fs : FS)
    (h : inTable = "" ∨ loc = "") :
    mainRun flt tables inTable loc fs =
      { fs := fs, messages := [],
        errors := ["Input table and file location are required."] } := by
  simp only [mainRun]
  rw [if_pos h]

/-- Witness for C3 at a concrete input. -/
theorem mainRun_empty_params_no_work_witness :
    (("" : String) = "" ∨ ("x" : String) = "") ∧
      mainRun noFaults [("T", [])] "" "x" ⟨[], [], []⟩ =
        { fs := ⟨[], [], []⟩, messages := [],
          errors := ["Input table and file location are required."] } :=
  ⟨Or.inl rfl, mainRun_empty_params_no_work noFaults [("T", [])] "" "x"
    ⟨[], [], []⟩ (Or.inl rfl)⟩

/-- C5: for a call with an existing source relation, when the destination
directory does not exist and makedirs raises nothing, the directory and
all its missing parent segments are created, the creation is reported as
the first informational message, and the directory exists afterwards
(whatever happens later in the run). -/
theorem extract_creates_missing_directory (flt : Faults)
    (tables : List (String × List Row)) (inTable loc : String) (fs : FS)
    (rows : List Row) (hT : lookupTable tables inTable = some rows)
    (hdir : pathExists fs loc = false) (hmk : flt.mkdirError = none) :
    loc ∈ ((extract_attachments flt tables inTable loc fs).fs).dirs
    ∧ (∀ a ∈ parentPaths loc,
        a ∈ ((extract_attachments flt tables inTable loc fs).fs).dirs)
    ∧ ((extract_attachments flt tables inTable loc fs).messages).head? =
        some ("Created directory: " ++ loc) := by
  cases hcur : flt.cursorError with
  | some e =>
    have hE : extract_attachments flt tables inTable loc fs =
        addErr { fs := mkdirs fs loc,
                 messages := ["Created directory: " ++ loc],
                 errors := [] } e := by
      simp [extract_attachments, hT, hdir, hmk, hcur]
    rw [hE]
    refine ⟨List.mem_cons_self _ _, ?_, rfl⟩
    intro a ha
    exact List.mem_cons_of_mem _ (List.mem_append_left _ ha)
  | none =>
    rw [extract_eq_processRows flt tables inTable loc fs rows hT
      (Or.inr hmk) hcur]
    set out0 : Output :=
      { fs := if pathExists fs loc then fs else mkdirs fs loc,
        messages := dirMsgs flt loc fs, errors := [] } with hout0
    have hdirs := processRows_dirs flt loc rows 0 out0
    have hfs0 : out0.fs = mkdirs fs loc := by
      rw [hout0]; simp [hdir]
    refine ⟨?_, ?_, ?_⟩
    · rw [hdirs, hfs0]
      exact List.mem_cons_self _ _
    · intro a ha
      rw [hdirs, hfs0]
      exact List.mem_cons_of_mem _ (List.mem_append_left _ ha)
    · obtain ⟨t, ht⟩ := processRows_messages_extend flt loc rows 0 out0
      rw [ht]
      have hmsg0 : out0.messages = ["Created directory: " ++ loc] := by
        rw [hout0]; simp [dirMsgs, hdir, hmk]
      rw [hmsg0]
      rfl

/-- Witness for C5 at a concrete input (a two-level missing path). -/
theorem extract_creates_missing_directory_witness :
    pathExists ⟨[], [], []⟩ "a/b" = false ∧
      "a/b" ∈ ((extract_attachments noFaults [("T", [])] "T" "a/b"
        ⟨[], [], []⟩).fs).dirs :=
  ⟨by decide, (extract_creates_missing_directory noFaults [("T", [])] "T"
    "a/b" ⟨[], [], []⟩ [] rfl (by decide) rfl).1⟩

/-- C6: for a source relation with zero rows, the destination directory
is still created when missing, the file store is unchanged (no files
written), and no error is reported. -/
theorem extract_empty_relation (flt : Faults)
    (tables : List (String × List Row)) (inTable loc : String) (fs : FS)
    (hT : lookupTable tables inTable = some [])
    (hmk : flt.mkdirError = none) (hcur : flt.cursorError = none) :
    (pathExists fs loc = false →
      loc ∈ ((extract_attachments flt tables inTable loc fs).fs).dirs)
    ∧ ((extract_attachments flt tables inTable loc fs).fs).files = fs.files
    ∧ (extract_attachments flt tables inTable loc fs).errors = [] := by
  rw [extract_eq_processRows flt tables inTable loc fs [] hT
    (Or.inr hmk) hcur, processRows_nil]
  cases hpe : pathExists fs loc with
  | true =>
    refine ⟨?_, ?_, rfl⟩
    · intro h; simp at h
    · simp [hpe]
  | false =>
    refine ⟨fun _ => ?_, ?_, rfl⟩
    · simp [hpe, mkdirs]
    · simp [hpe, mkdirs]

/-- Witness for C6 at a concrete input. -/
theorem extract_empty_relation_witness :
    lookupTable [("T", [])] "T" = some [] ∧
      ((extract_attachments noFaults [("T", [])] "T" "out"
        ⟨[], [], []⟩).fs).files = (⟨[], [], []⟩ : FS).files ∧
      (extract_attachments noFaults [("T", [])] "T" "out"
        ⟨[], [], []⟩).errors = [] :=
  ⟨rfl, (extract_empty_relation noFaults [("T", [])] "T" "out"
      ⟨[], [], []⟩ rfl rfl rfl).2.1,
    (extract_empty_relation noFaults [("T", [])] "T" "out"
      ⟨[], [], []⟩ rfl rfl rfl).2.2⟩

/-- C4: over an existing source relation, when the run raises its first
exception (during directory creation, cursor opening, row fetch, file
open, payload conversion or file write, with `k` rows fully processed
before it), extract_attachments reports exactly one error message,
namely the catch-all text containing the exception description; the
informational messages stop at the failing row (directory message plus
the first k saved messages); and every file written before the failure
is still present afterwards (no rollback). -/
theorem extract_exception_single_error_partial_output (flt : Faults)
    (tables : List (String × List Row)) (inTable loc : String) (fs : FS)
    (rows : List Row) (k : Nat) (e : String)
    (hT : lookupTable tables inTable = some rows)
    (hf : firstFailure flt loc fs rows = some (k, e)) :
    (extract_attachments flt tables inTable loc fs).errors =
      ["Error while extracting attachments: " ++ e]
    ∧ (extract_attachments flt tables inTable loc fs).messages =
        dirMsgs flt loc fs ++ savedMsgs (rows.take k)
    ∧ ∀ j (hj : j < rows.length), j < k →
        present ((extract_attachments flt tables inTable loc fs).fs)
          (rowPath loc (rows.get ⟨j, hj⟩)) := by
  cases hpe : pathExists fs loc with
  | true =>
    cases hcur : flt.cursorError with
    | some e0 =>
      simp [firstFailure, hpe, hcur] at hf
      obtain ⟨hk0, he0⟩ := hf
      subst he0
      have hE : extract_attachments flt tables inTable loc fs =
          addErr { fs := fs, messages := [], errors := [] } e0 := by
        simp [extract_attachments, hT, hpe, hcur]
      rw [hE]
      refine ⟨rfl, ?_, ?_⟩
      · rw [← hk0]; simp [dirMsgs, hpe, addErr, savedMsgs_nil]
      · intro j hj hjk; omega
    | none =>
      have hfr : firstRowFail flt loc rows 0 = some (k, e) := by
        simpa [firstFailure, hpe, hcur] using hf
      have hE := extract_eq_processRows flt tables inTable loc fs rows hT
        (Or.inl hpe) hcur
      rw [hE]
      set out0 : Output :=
        { fs := if pathExists fs loc then fs else mkdirs fs loc,
          messages := dirMsgs flt loc fs, errors := [] } with hout0
      obtain ⟨hklen, herr, hmsg⟩ := processRows_fail flt loc rows 0 out0 k e hfr
      refine ⟨by rw [herr]; rfl, by rw [hmsg], ?_⟩
      intro j hj hjk
      exact processRows_fail_presence flt loc rows 0 out0 k e hfr j hj hjk
  | false =>
    cases hmk : flt.mkdirError with
    | some e0 =>
      simp [firstFailure, hpe, hmk] at hf
      obtain ⟨hk0, he0⟩ := hf
      subst he0
      have hE : extract_attachments flt tables inTable loc fs =
          addErr { fs := fs, messages := [], errors := [] } e0 := by
        simp [extract_attachments, hT, hpe, hmk]
      rw [hE]
      refine ⟨rfl, ?_, ?_⟩
      · rw [← hk0]; simp [dirMsgs, hpe, hmk, addErr, savedMsgs_nil]
      · intro j hj hjk; omega
    | none =>
      cases hcur : flt.cursorError with
      | some e0 =>
        simp [firstFailure, hpe, hmk, hcur] at hf
        obtain ⟨hk0, he0⟩ := hf
        subst he0
        have hE : extract_attachments flt tables inTable loc fs =
            addErr { fs := mkdirs fs loc,
                     messages := ["Created directory: " ++ loc],
                     errors := [] } e0 := by
          simp [extract_attachments, hT, hpe, hmk, hcur]
        rw [hE]
        refine ⟨rfl, ?_, ?_⟩
        · rw [← hk0]; simp [dirMsgs, hpe, hmk, addErr, savedMsgs_nil]
        · intro j hj hjk; omega
      | none =>
        have hfr : firstRowFail flt loc rows 0 = some (k, e) := by
          simpa [firstFailure, hpe, hmk, hcur] using hf
        have hE := extract_eq_processRows flt tables inTable loc fs rows hT
          (Or.inr hmk) hcur
        rw [hE]
        set out0 : Output :=
          { fs := if pathExists fs loc then fs else mkdirs fs loc,
            messages := dirMsgs flt loc fs, errors := [] } with hout0
        obtain ⟨hklen, herr, hmsg⟩ :=
          processRows_fail flt loc rows 0 out0 k e hfr
        refine ⟨by rw [herr]; rfl, by rw [hmsg], ?_⟩
        intro j hj hjk
        exact processRows_fail_presence flt loc rows 0 out0 k e hfr j hj hjk

/-- Witness for C4: one good row, then a row whose null payload raises;
the run reports exactly the single catch-all error. -/
theorem extract_exception_single_error_partial_output_witness :
    firstFailure noFaults "out" ⟨[], [], []⟩
        [⟨some [1], "a.jpg", 1⟩, ⟨none, "b.jpg", 2⟩] =
      some (1, "NoneType object has no attribute tobytes") ∧
    (extract_attachments noFaults
        [("T", [⟨some [1], "a.jpg", 1⟩, ⟨none, "b.jpg", 2⟩])]
        "T" "out" ⟨[], [], []⟩).errors =
      ["Error while extracting attachments: " ++
        "NoneType object has no attribute tobytes"] :=
  ⟨by decide,
    (extract_exception_single_error_partial_output noFaults
      [("T", [⟨some [1], "a.jpg", 1⟩, ⟨none, "b.jpg", 2⟩])] "T" "out"
      ⟨[], [], []⟩ [⟨some [1], "a.jpg", 1⟩, ⟨none, "b.jpg", 2⟩] 1
      "NoneType object has no attribute tobytes" rfl (by decide)).1⟩

/-- C8: the per-row write opens the output path for binary write, writes
the entire payload, and releases the file handle in every branch,
success or raise (scoped acquisition); consequently no handle survives a
whole extract_attachments run either. -/
theorem writeRow_scoped_write (flt : Faults) (fs : FS) (p : String)
    (bs : List Nat) (hopen : flt.openError p = none)
    (hwrite : flt.writeError p = none) :
    (∀ d, ((writeRow flt fs p d).1).openHandles = fs.openHandles)
    ∧ writeRow flt fs p (some bs) =
        ({ fs with files := (p, bs) :: (p, []) :: fs.files }, none)
    ∧ lookupFile ((writeRow flt fs p (some bs)).1).files p = some bs
    ∧ ∀ (tables : List (String × List Row)) (inTable loc : String)
        (fs2 : FS),
        ((extract_attachments flt tables inTable loc fs2).fs).openHandles =
          fs2.openHandles := by
  have hok := writeRow_of_ok flt fs p bs hopen hwrite
  refine ⟨fun d => writeRow_fst_handles flt fs p d, hok, ?_, ?_⟩
  · rw [hok]; simp [lookupFile]
  · intro tables inTable loc fs2
    exact extract_handles flt tables inTable loc fs2

/-- Witness for C8 at a concrete input, including a raising branch. -/
theorem writeRow_scoped_write_witness :
    lookupFile ((writeRow noFaults ⟨["d"], [], []⟩ "d/x"
        (some [7])).1).files "d/x" = some [7] ∧
    ((writeRow noFaults ⟨["d"], [], []⟩ "d/x" none).1).openHandles =
      (⟨["d"], [], []⟩ : FS).openHandles :=
  ⟨(writeRow_scoped_write noFaults ⟨["d"], [], []⟩ "d/x" [7]
      rfl rfl).2.2.1,
    (writeRow_scoped_write noFaults ⟨["d"], [], []⟩ "d/x" [7]
      rfl rfl).1 none⟩

/-- C9: a row whose payload has zero length is written as an empty file
at the derived path and this is not an error: the loop appends no error,
reports the row saved, and continues with the remaining rows. -/
theorem processRows_empty_payload_continues (flt : Faults) (loc : String)
    (r : Row) (rs : List Row) (i : Nat) (out : Output)
    (hread : flt.readError i = none)
    (hopen : flt.openError (rowPath loc r) = none)
    (hwrite : flt.writeError (rowPath loc r) = none)
    (hd : r.data = some []) :
    processRows flt loc (r :: rs) i out =
      processRows flt loc rs (i + 1)
        { fs := { out.fs with
            files := (rowPath loc r, []) :: (rowPath loc r, []) ::
              out.fs.files },
          messages := out.messages ++ [savedMsg r], errors := out.errors }
    ∧ lookupFile ((rowPath loc r, ([] : List Nat)) ::
        (rowPath loc r, []) :: out.fs.files) (rowPath loc r) = some [] := by
  have hwf : writeFailMsg flt (rowPath loc r) r.data = none :=
    (writeFailMsg_none_iff flt (rowPath loc r) r.data).mpr
      ⟨hopen, ⟨[], hd⟩, hwrite⟩
  refine ⟨?_, by simp [lookupFile]⟩
  rw [processRows_cons_ok flt loc r rs i out hread hwf]
  simp [hd]

/-- Witness for C9 at a concrete input. -/
theorem processRows_empty_payload_continues_witness :
    (⟨some [], "b.jpg", 2⟩ : Row).data = some [] ∧
    lookupFile ((rowPath "out" ⟨some [], "b.jpg", 2⟩, ([] : List Nat)) ::
        (rowPath "out" ⟨some [], "b.jpg", 2⟩, []) ::
        (⟨["out"], [], []⟩ : FS).files)
      (rowPath "out" ⟨some [], "b.jpg", 2⟩) = some [] :=
  ⟨rfl,
    (processRows_empty_payload_continues noFaults "out"
      ⟨some [], "b.jpg", 2⟩ [] 0 ⟨⟨["out"], [], []⟩, [], []⟩
      rfl rfl rfl rfl).2⟩

/-- C1 counterexample, two runs. First, two rows derive the same
filename: the first row is successfully processed (its saved message is
emitted, no error), yet afterwards the file at its derived path holds
the second row's payload [2], not the first row's payload [1]. Second, a
successfully processed row followed by a failing row with the same
derived name: the failing row's binary-write open truncates the file to
empty before raising, so the processed row's payload [1] is gone even
though only it was ever reported saved. -/
theorem extract_duplicate_name_first_payload_lost :
    (extract_attachments noFaults
        [("T", [⟨some [1], "a.jpg", 1⟩, ⟨some [2], "a.jpg", 1⟩])]
        "T" "out" ⟨[], [], []⟩).messages =
      ["Created directory: out", "Saved attachment: ATT1_a.jpg",
        "Saved attachment: ATT1_a.jpg"]
    ∧ (extract_attachments noFaults
        [("T", [⟨some [1], "a.jpg", 1⟩, ⟨some [2], "a.jpg", 1⟩])]
        "T" "out" ⟨[], [], []⟩).errors = []
    ∧ lookupFile ((extract_attachments noFaults
        [("T", [⟨some [1], "a.jpg", 1⟩, ⟨some [2], "a.jpg", 1⟩])]
        "T" "out" ⟨[], [], []⟩).fs).files
        (rowPath "out" ⟨some [1], "a.jpg", 1⟩) = some [2]
    ∧ ¬ lookupFile ((extract_attachments noFaults
        [("T", [⟨some [1], "a.jpg", 1⟩, ⟨some [2], "a.jpg", 1⟩])]
        "T" "out" ⟨[], [], []⟩).fs).files
        (rowPath "out" ⟨some [1], "a.jpg", 1⟩) = some [1]
    ∧ (extract_attachments noFaults
        [("U", [⟨some [1], "a.jpg", 1⟩, ⟨none, "a.jpg", 1⟩])]
        "U" "out" ⟨[], [], []⟩).messages =
      ["Created directory: out", "Saved attachment: ATT1_a.jpg"]
    ∧ lookupFile ((extract_attachments noFaults
        [("U", [⟨some [1], "a.jpg", 1⟩, ⟨none, "a.jpg", 1⟩])]
        "U" "out" ⟨[], [], []⟩).fs).files
        (rowPath "out" ⟨some [1], "a.jpg", 1⟩) = some []
    ∧ ¬ lookupFile ((extract_attachments noFaults
        [("U", [⟨some [1], "a.jpg", 1⟩, ⟨none, "a.jpg", 1⟩])]
        "U" "out" ⟨[], [], []⟩).fs).files
        (rowPath "out" ⟨some [1], "a.jpg", 1⟩) = some [1] := by decide

/-- C1 (amended): for every row successfully processed — the first
`processedCount` rows, also in runs where a later row fails — a file
exists afterward at the destination joined with ATT<id>_<name>. Its
contents equal that row's payload byte-for-byte provided no later row
opens the same derived path: a later processed row deriving the same
name overwrites it with its own payload, and a later failing row that
already opened the same derived name leaves it truncated to empty. -/
theorem extract_processed_row_file_contents (flt : Faults)
    (tables : List (String × List Row)) (inTable loc : String) (fs : FS)
    (rows : List Row) (i : Nat)
    (hT : lookupTable tables inTable = some rows)
    (hmk : pathExists fs loc = true ∨ flt.mkdirError = none)
    (hcur : flt.cursorError = none)
    (hi : i < rows.length)
    (hproc : i < processedCount flt loc rows) :
    present ((extract_attachments flt tables inTable loc fs).fs)
      (rowPath loc (rows.get ⟨i, hi⟩))
    ∧ ∃ bs, (rows.get ⟨i, hi⟩).data = some bs ∧
        (((∀ l (hl : l < rows.length), i < l →
              l < processedCount flt loc rows →
              rowPath loc (rows.get ⟨l, hl⟩) ≠
                rowPath loc (rows.get ⟨i, hi⟩))
          ∧ ∀ k e, firstRowFail flt loc rows 0 = some (k, e) →
              ∀ (hk : k < rows.length), flt.readError k = none →
                flt.openError (rowPath loc (rows.get ⟨k, hk⟩)) = none →
                rowPath loc (rows.get ⟨k, hk⟩) ≠
                  rowPath loc (rows.get ⟨i, hi⟩)) →
          lookupFile
            ((extract_attachments flt tables inTable loc fs).fs).files
            (rowPath loc (rows.get ⟨i, hi⟩)) = some bs) := by
  rw [extract_eq_processRows flt tables inTable loc fs rows hT hmk hcur]
  set out0 : Output :=
    { fs := if pathExists fs loc then fs else mkdirs fs loc,
      messages := dirMsgs flt loc fs, errors := [] } with hout0
  rcases hfr : firstRowFail flt loc rows 0 with _ | ⟨k, e⟩
  · have hpc : processedCount flt loc rows = rows.length := by
      simp [processedCount, hfr]
    obtain ⟨herr, hmsg, hlook⟩ := processRows_ok flt loc rows 0 out0 hfr
    have hsome := lastPayload_isSome_of_mem loc rows i hi
    have hdata : ∃ bs, (rows.get ⟨i, hi⟩).data = some bs := by
      have hrfm := firstRowFail_none_all flt loc rows 0 hfr i hi
      have h2 := (rowFailMsg_none_iff flt (0 + i)
        (rowPath loc (rows.get ⟨i, hi⟩)) (rows.get ⟨i, hi⟩).data).mp hrfm
      exact ((writeFailMsg_none_iff flt (rowPath loc (rows.get ⟨i, hi⟩))
        (rows.get ⟨i, hi⟩).data).mp h2.2).2.1
    obtain ⟨bs, hbs⟩ := hdata
    constructor
    · simp only [present]
      rw [hlook]
      rcases hlp : lastPayload (writePairs loc rows)
          (rowPath loc (rows.get ⟨i, hi⟩)) with _ | v
      · rw [hlp] at hsome; simp at hsome
      · simp [Option.elim]
    · refine ⟨bs, hbs, ?_⟩
      rintro ⟨hnodup, _⟩
      have hnodup' : ∀ l (hl : l < rows.length), i < l →
          rowPath loc (rows.get ⟨l, hl⟩) ≠
            rowPath loc (rows.get ⟨i, hi⟩) := by
        intro l hl hil
        exact hnodup l hl hil (by rw [hpc]; exact hl)
      rw [hlook, lastPayload_last loc rows i hi hnodup']
      rw [List.get_eq_getElem] at hbs
      simp [hbs, Option.elim]
  · have hpc : processedCount flt loc rows = k := by
      simp [processedCount, hfr]
    have hik : i < k := by rw [hpc] at hproc; exact hproc
    have hk : k < rows.length :=
      (processRows_fail flt loc rows 0 out0 k e hfr).1
    have hdata : ∃ bs, (rows.get ⟨i, hi⟩).data = some bs := by
      have hrfm := firstRowFail_prefix_ok flt loc rows 0 k e hfr i hi hik
      have h2 := (rowFailMsg_none_iff flt (0 + i)
        (rowPath loc (rows.get ⟨i, hi⟩)) (rows.get ⟨i, hi⟩).data).mp hrfm
      exact ((writeFailMsg_none_iff flt (rowPath loc (rows.get ⟨i, hi⟩))
        (rows.get ⟨i, hi⟩).data).mp h2.2).2.1
    obtain ⟨bs, hbs⟩ := hdata
    constructor
    · exact processRows_fail_presence flt loc rows 0 out0 k e hfr i hi hik
    · refine ⟨bs, hbs, ?_⟩
      rintro ⟨hnodup, hnotrunc⟩
      have hnodup' : ∀ l (hl : l < rows.length), i < l → l < k →
          rowPath loc (rows.get ⟨l, hl⟩) ≠
            rowPath loc (rows.get ⟨i, hi⟩) := by
        intro l hl hil hlk
        exact hnodup l hl hil (by rw [hpc]; exact hlk)
      have hlastp := lastPayload_last_take loc rows k i hik hi hnodup'
      by_cases hoc : flt.readError k = none ∧
          flt.openError (rowPath loc (rows.get ⟨k, hk⟩)) = none
      · have hne := hnotrunc k e rfl hk hoc.1 hoc.2
        have hlook := processRows_fail_lookup_opened flt loc rows 0 out0
          k e hfr hk (by simpa using hoc.1) hoc.2
          (rowPath loc (rows.get ⟨i, hi⟩))
        rw [hlook, if_neg hne, hlastp]
        rw [List.get_eq_getElem] at hbs
        simp [hbs, Option.elim]
      · have hlook := processRows_fail_lookup_unopened flt loc rows 0 out0
          k e hfr hk (by simpa using hoc)
          (rowPath loc (rows.get ⟨i, hi⟩))
        rw [hlook, hlastp]
        rw [List.get_eq_getElem] at hbs
        simp [hbs, Option.elim]

/-- Witness for the amended C1 at a concrete input with distinct names. -/
theorem extract_processed_row_file_contents_witness :
    0 < processedCount noFaults "out"
        [⟨some [1, 2], "a.jpg", 1⟩, ⟨some [], "b.jpg", 2⟩] ∧
    present ((extract_attachments noFaults
        [("T", [⟨some [1, 2], "a.jpg", 1⟩, ⟨some [], "b.jpg", 2⟩])]
        "T" "out" ⟨[], [], []⟩).fs)
      (rowPath "out" ⟨some [1, 2], "a.jpg", 1⟩) :=
  ⟨by decide,
    (extract_processed_row_file_contents noFaults
      [("T", [⟨some [1, 2], "a.jpg", 1⟩, ⟨some [], "b.jpg", 2⟩])]
      "T" "out" ⟨[], [], []⟩
      [⟨some [1, 2], "a.jpg", 1⟩, ⟨some [], "b.jpg", 2⟩] 0 rfl
      (Or.inr rfl) rfl (by decide) (by decide)).1⟩

/-- C7: when two rows derive the same path and the run succeeds, the
second write silently overwrites the first — no error or warning is
emitted (the messages are exactly the directory message and the saved
messages) and the file's final contents equal the payload of the last
row deriving that path. -/
theorem extract_duplicate_filename_last_wins (flt : Faults)
    (tables : List (String × List Row)) (inTable loc : String) (fs : FS)
    (rows : List Row) (i j : Nat)
    (hT : lookupTable tables inTable = some rows)
    (hmk : pathExists fs loc = true ∨ flt.mkdirError = none)
    (hcur : flt.cursorError = none)
    (hok : firstRowFail flt loc rows 0 = none)
    (hi : i < rows.length) (hj : j < rows.length) (_hij : i < j)
    (_hsame : rowPath loc (rows.get ⟨i, hi⟩) = rowPath loc (rows.get ⟨j, hj⟩))
    (hlastdup : ∀ l (hl : l < rows.length), j < l →
        rowPath loc (rows.get ⟨l, hl⟩) ≠ rowPath loc (rows.get ⟨j, hj⟩)) :
    (extract_attachments flt tables inTable loc fs).errors = []
    ∧ (extract_attachments flt tables inTable loc fs).messages =
        dirMsgs flt loc fs ++ savedMsgs rows
    ∧ lookupFile ((extract_attachments flt tables inTable loc fs).fs).files
        (rowPath loc (rows.get ⟨j, hj⟩)) =
          some ((rows.get ⟨j, hj⟩).data.getD []) := by
  rw [extract_eq_processRows flt tables inTable loc fs rows hT hmk hcur]
  set out0 : Output :=
    { fs := if pathExists fs loc then fs else mkdirs fs loc,
      messages := dirMsgs flt loc fs, errors := [] } with hout0
  obtain ⟨herr, hmsg, hlook⟩ := processRows_ok flt loc rows 0 out0 hok
  refine ⟨by rw [herr], by rw [hmsg], ?_⟩
  rw [hlook, lastPayload_last loc rows j hj hlastdup]
  rfl

/-- Witness for C7 at a concrete input with two colliding rows. -/
theorem extract_duplicate_filename_last_wins_witness :
    rowPath "out" ⟨some [1], "a.jpg", 1⟩ =
      rowPath "out" ⟨some [2], "a.jpg", 1⟩ ∧
    lookupFile ((extract_attachments noFaults
        [("T", [⟨some [1], "a.jpg", 1⟩, ⟨some [2], "a.jpg", 1⟩])]
        "T" "out" ⟨[], [], []⟩).fs).files
      (rowPath "out" ⟨some [2], "a.jpg", 1⟩) = some [2] :=
  ⟨by decide,
    (extract_duplicate_filename_last_wins noFaults
      [("T", [⟨some [1], "a.jpg", 1⟩, ⟨some [2], "a.jpg", 1⟩])]
      "T" "out" ⟨[], [], []⟩
      [⟨some [1], "a.jpg", 1⟩, ⟨some [2], "a.jpg", 1⟩] 0 1 rfl
      (Or.inr rfl) rfl (by decide) (by decide) (by decide) (by decide)
      (by decide) (by decide)).2.2⟩

/-- C10 counterexample: for a single row whose payload is null, a file IS
left at the derived path (the binary-write open creates it, truncated to
empty, before the payload conversion raises), contradicting "writes no
file for that row". -/
theorem extract_null_payload_creates_empty_file :
    lookupFile ((⟨[], [], []⟩ : FS)).files
        (rowPath "out" ⟨none, "a.jpg", 1⟩) = none
    ∧ lookupFile ((extract_attachments noFaults
        [("T", [⟨none, "a.jpg", 1⟩])] "T" "out" ⟨[], [], []⟩).fs).files
        (rowPath "out" ⟨none, "a.jpg", 1⟩) = some []
    ∧ (extract_attachments noFaults [("T", [⟨none, "a.jpg", 1⟩])]
        "T" "out" ⟨[], [], []⟩).errors =
      ["Error while extracting attachments: " ++
        "NoneType object has no attribute tobytes"] := by decide

/-- C10 (amended): for a row whose payload is null, converting it to
bytes raises, so extract_attachments reports the catch-all error naming
the conversion failure, abandons all remaining rows (the messages stop
at the failing row), and writes no payload bytes for that row — but the
binary-write open has already created the file at the derived path,
truncated to empty, so an empty file is left there. -/
theorem extract_null_payload_aborts (flt : Faults)
    (tables : List (String × List Row)) (inTable loc : String) (fs : FS)
    (rows : List Row) (k : Nat)
    (hT : lookupTable tables inTable = some rows)
    (hmk : pathExists fs loc = true ∨ flt.mkdirError = none)
    (hcur : flt.cursorError = none)
    (hk : k < rows.length)
    (hpre : ∀ j (hj : j < rows.length), j < k →
      rowFailMsg flt j (rowPath loc (rows.get ⟨j, hj⟩))
        (rows.get ⟨j, hj⟩).data = none)
    (hread : flt.readError k = none)
    (hopen : flt.openError (rowPath loc (rows.get ⟨k, hk⟩)) = none)
    (hdata : (rows.get ⟨k, hk⟩).data = none) :
    (extract_attachments flt tables inTable loc fs).errors =
      ["Error while extracting attachments: " ++
        "NoneType object has no attribute tobytes"]
    ∧ lookupFile ((extract_attachments flt tables inTable loc fs).fs).files
        (rowPath loc (rows.get ⟨k, hk⟩)) = some []
    ∧ (extract_attachments flt tables inTable loc fs).messages =
        dirMsgs flt loc fs ++ savedMsgs (rows.take k) := by
  have hfailk : rowFailMsg flt (0 + k) (rowPath loc (rows.get ⟨k, hk⟩))
      (rows.get ⟨k, hk⟩).data =
        some "NoneType object has no attribute tobytes" := by
    have hopen2 : flt.openError (rowPath loc (rows.get ⟨k, hk⟩)) = none :=
      hopen
    have hdata2 : (rows.get ⟨k, hk⟩).data = none := hdata
    rw [List.get_eq_getElem] at hopen2 hdata2
    simp [rowFailMsg, hread, writeFailMsg, hopen2, hdata2, tobytes]
  have hpre0 : ∀ j (hj : j < rows.length), j < k →
      rowFailMsg flt (0 + j) (rowPath loc (rows.get ⟨j, hj⟩))
        (rows.get ⟨j, hj⟩).data = none := by
    intro j hj hjk
    have hp := hpre j hj hjk
    simpa using hp
  have hfr := firstRowFail_of_prefix flt loc rows 0 k hk
    "NoneType object has no attribute tobytes" hpre0 hfailk
  rw [extract_eq_processRows flt tables inTable loc fs rows hT hmk hcur]
  set out0 : Output :=
    { fs := if pathExists fs loc then fs else mkdirs fs loc,
      messages := dirMsgs flt loc fs, errors := [] } with hout0
  obtain ⟨hklen, herr, hmsg⟩ := processRows_fail flt loc rows 0 out0 k
    "NoneType object has no attribute tobytes" hfr
  refine ⟨by rw [herr]; rfl, ?_, by rw [hmsg]⟩
  exact processRows_fail_file flt loc rows 0 out0 k
    "NoneType object has no attribute tobytes" hfr hk (by simpa using hread)
    hopen

/-- Witness for the amended C10 at a concrete input. -/
theorem extract_null_payload_aborts_witness :
    (⟨none, "a.jpg", 1⟩ : Row).data = none ∧
    lookupFile ((extract_attachments noFaults
        [("T", [⟨none, "a.jpg", 1⟩])] "T" "out" ⟨[], [], []⟩).fs).files
      (rowPath "out" ⟨none, "a.jpg", 1⟩) = some [] :=
  ⟨rfl,
    (extract_null_payload_aborts noFaults [("T", [⟨none, "a.jpg", 1⟩])]
      "T" "out" ⟨[], [], []⟩ [⟨none, "a.jpg", 1⟩] 0 rfl (Or.inr rfl) rfl
      (by decide) (by decide) rfl rfl rfl).2.1⟩

end ExportPhotos
